import Mathlib

/-!
# Verification of the fs-cache document store and TTL key/value store

Shallow embedding of the `fscache` Go package: the `Memgodb` document
collection engine (`Collection`, `Insert.One`, `Filter.First`, `Filter.All`,
`Delete.One`, `Update.One`, `Persist`, `LoadDefault`) and the `Memdis` TTL
key/value store (`Set`, `SetMany`, `Get`).

Modelling conventions:
* `interface{}` values that flow through JSON are modelled by the inductive
  `Val` (null, booleans, numbers, text, times, uuids); records
  (`map[string]interface{}`) are association lists `Rec` with Go-map lookup
  semantics (`getV` finds the unique binding, `setV` replaces it in place).
  Since `Val` is already JSON-shaped, the JSON round trips performed by
  `decode`/`decodeMany` are the identity on records, and serialization of the
  store is the record list itself.
* `time.Now()` and `uuid.New()` are passed in as explicit `Nat` parameters.
* The package-level slice `MemgodbStorage []interface{}` is modelled as
  `Option (List Rec)`: `none` is the nil slice (its zero value), `some xs` a
  non-nil slice whose live elements are `xs`.  The distinction is observable
  in the source: `decodeMany` of a nil slice yields a nil `objMaps` (JSON
  `null` round trip), and `Persist` checks `MemgodbStorage == nil`.
* Go map iteration order over a filter/patch is unspecified; filters and
  patches are association lists, which fixes one iteration order.  Every
  theorem below either does not depend on the order or uses single-entry
  maps, where Go's order is also determined.
-/

set_option linter.unusedVariables false

inductive Val where
  | vnull : Val
  | vbool : Bool → Val
  | vnum : Int → Val
  | vstr : String → Val
  | vtime : Nat → Val
  | vid : Nat → Val
  deriving DecidableEq, Repr

/-- A normalized record: `map[string]interface{}` as an association list with
unique keys (Go maps cannot hold duplicate keys). -/
abbrev Rec := List (String × Val)

/-- Go map read `r[k]`: the value bound to `k`, if present. -/
def getV (r : Rec) (k : String) : Option Val :=
  match r with
  | [] => none
  | (k', v) :: rest => if k' = k then some v else getV rest k

/-- Go map write `r[k] = v`: replaces the binding in place, or appends a new
one. -/
def setV (r : Rec) (k : String) (v : Val) : Rec :=
  match r with
  | [] => [(k, v)]
  | (k', v') :: rest => if k' = k then (k, v) :: rest else (k', v') :: setV rest k v

/-- A Go `interface{}` argument as the package inspects it with `reflect`:
nil, a string, a `map[string]interface{}`, a struct (with its type name, its
JSON field map, and whether `json.Marshal` accepts it — a struct holding e.g.
a channel marshals with an error), or a value of any other kind (int, slice,
pointer, ...). -/
inductive GoVal where
  | gnil : GoVal
  | gstr : String → GoVal
  | gmap : Rec → GoVal
  | gstruct : String → Rec → Bool → GoVal
  | gother : String → GoVal
  deriving DecidableEq, Repr

namespace Fscache

/-- The live elements of the `MemgodbStorage` slice (`none` = nil slice). -/
def live (s : Option (List Rec)) : List Rec :=
  match s with
  | none => []
  | some xs => xs

/-- Model of `Collection.decode`: JSON round trip of a value into a
`map[string]interface{}`.  On our JSON-shaped values the round trip of a map
or of a marshalable struct's field map is the identity; a non-marshalable
struct fails inside `json.Marshal`. -/
def decode (obj : GoVal) : Except String Rec :=
  match obj with
  | .gmap r => .ok r
  | .gstruct _ fields true => .ok fields
  | .gstruct _ _ false => .error "json: unsupported type"
  | .gnil => .error "unexpected end of JSON input"
  | .gstr _ => .error "json: cannot unmarshal string into map"
  | .gother k => .error ("json: cannot marshal " ++ k)

/-- Model of `Collection.decodeMany(MemgodbStorage)`: JSON round trip of the storage
slice into `[]map[string]interface{}`.  A nil slice marshals to `null`, which
unmarshals back to a nil slice; a non-nil slice of records round-trips to
itself. -/
def decodeManyStorage (s : Option (List Rec)) : Option (List Rec) :=
  match s with
  | none => none
  | some xs => some xs

/-- Name munging of `Memgodb.Collection`: lower-casing (`strings.ToLower`)
then a trailing "s" appended when the name is non-empty and its last byte is
not "s".  Both are spelled on the character list (ASCII semantics, exact for
the names in scope). -/
def pluralizeName (s : String) : String :=
  let lowered := s.data.map Char.toLower
  if lowered.length > 0 && lowered.getLast? ≠ some 's'
  then ⟨lowered ++ ['s']⟩ else ⟨lowered⟩

/-- Model of `Memgodb.Collection(col)`: resolves a collection name or fails
fatally (panic, modelled as `.error` carrying the panic message).
Source trace: `reflect.ValueOf(col).IsZero()` panics when `col` is nil (zero
`reflect.Value`), so the explicit `panic("Collection cannot be empty...")`
guarded by `IsZero() && col == nil` is unreachable; a kind that is neither
struct nor string panics with the second message; otherwise the name is
resolved by `pluralizeName`. -/
def collectionName (col : GoVal) : Except String String :=
  match col with
  | .gnil => .error "reflect: call of reflect.Value.IsZero on zero Value"
  | .gstr s => .ok (pluralizeName s)
  | .gstruct name _ _ => .ok (pluralizeName name)
  | .gmap _ => .error "Collection must either be a [string] or an [object]"
  | .gother _ => .error "Collection must either be a [string] or an [object]"

/-- System-field injection of `Insert.One` (source lines
`objMap["colName"] = ...` through `objMap["updatedAt"] = nil`). -/
def injectSystemFields (c : String) (m : Rec) (newId now : Nat) : Rec :=
  setV (setV (setV (setV m "colName" (.vstr c)) "id" (.vid newId))
    "createdAt" (.vtime now)) "updatedAt" .vnull

/-- Model of `Insert.One()` for the handle of collection `c`, with `uuid.New()` and
`time.Now()` passed in as `newId` and `now`.  Returns the result together
with the storage after the call. -/
def Insert.One (c : String) (obj : GoVal) (newId now : Nat)
    (s : Option (List Rec)) : Except String Rec × Option (List Rec) :=
  match obj with
  | .gnil => (.error "One() params cannot be nil", s)
  | .gstr _ => (.error "insert() param must either be a [map] or a [struct]", s)
  | .gother _ => (.error "insert() param must either be a [map] or a [struct]", s)
  | _ =>
    match decode obj with
    | .error e => (.error e, s)
    | .ok m =>
      let stored := injectSystemFields c m newId now
      (.ok stored, some (live s ++ [stored]))

/-- One step of the shared inner match loop of `First`/`All`/`Delete.One`/
`Update.One`: the candidate `item` is in the handle's collection
(`item["colName"] == collectionName`). -/
def colMatches (c : String) (item : Rec) : Bool :=
  getV item "colName" = some (.vstr c)

/-- Step `v, ok := item[key]; ok && val == v` of the inner match loop. -/
def keyMatches (item : Rec) (k : String) (v : Val) : Bool :=
  match getV item k with
  | some w => w = v
  | none => false

/-- The shared matching rule of `Filter.First`, `Filter.All`, `Delete.One`
and `Update.One`: the inner loop `for key, val := range filter` acts on
`item` as soon as ONE `(key, val)` pair of the filter is present in `item`
with an equal value (and the collection matches); it never requires the
remaining pairs to match. -/
def recMatches (c : String) (flt : List (String × Val)) (item : Rec) : Bool :=
  flt.any (fun kv => colMatches c item && keyMatches item kv.1 kv.2)

/-- Outer loop of `Filter.First`: the `counter` guard keeps the first item
whose inner key loop fires (the loop keeps scanning afterwards but never
replaces `foundObj`), so the result is the first storage item satisfying
`recMatches`. -/
def firstMatch (c : String) (flt : List (String × Val)) : List Rec → Option Rec
  | [] => none
  | item :: rest => if recMatches c flt item then some item else firstMatch c flt rest

/-- Model of `Collection.Filter(filter)` followed by `Filter.First()`.
The constructor sets `objMaps := decodeMany(MemgodbStorage)` only when the
filter is non-nil, so `objMaps` is nil when the filter is nil OR the storage
slice is nil; `First` then returns the `filter params cannot be nil` error. -/
def Filter.First (c : String) (flt : Option (List (String × Val)))
    (s : Option (List Rec)) : Except String Rec :=
  match flt, decodeManyStorage s with
  | none, _ => .error "filter params cannot be nil"
  | some _, none => .error "filter params cannot be nil"
  | some f, some ms =>
    match firstMatch c f ms with
    | some r => .ok r
    | none => .error "record not found"

/-- Inner loops of `Filter.All`: for every storage item and every filter pair
that matches it (collection and key/value), the item is appended to
`foundObj` — an item matching two filter pairs is appended twice. -/
def allMatches (c : String) (flt : List (String × Val)) (ms : List Rec) : List Rec :=
  ms.flatMap (fun item => flt.filterMap (fun kv =>
    if colMatches c item && keyMatches item kv.1 kv.2 then some item else none))

/-- Model of `Collection.Filter(filter)` followed by `Filter.All()`.  When
`objMaps` is nil (nil filter, or nil storage — see `Filter.First`), `All`
marshals the whole storage and returns every record in it, across all
collections, with no error.  Otherwise it scans; the `notFound` flag is set
exactly when at least one append happened, i.e. when `allMatches` is
non-empty. -/
def Filter.All (c : String) (flt : Option (List (String × Val)))
    (s : Option (List Rec)) : Except String (List Rec) :=
  match flt, decodeManyStorage s with
  | none, _ => .ok (live s)
  | some _, none => .ok (live s)
  | some f, some ms =>
    let found := allMatches c f ms
    if found.isEmpty then .error "record not found" else .ok found

/-- Outcome of an operation whose result can depend on the capacity residue
of the storage slice's backing array.  `Delete.One` re-slices
`MemgodbStorage[:index]` with a stale snapshot index; when that index exceeds
the current live length the slice re-exposes backing-array contents past the
length, which depend on Go's allocation-growth history.  Such executions are
flagged `capDependent`; every execution used by a theorem below stays in the
determined regime. -/
inductive GoOutcome (α : Type) where
  | det : α → GoOutcome α
  | capDependent : GoOutcome α
  deriving DecidableEq, Repr

/-- Outer loop of `Delete.One`: iterates over the `objMaps` snapshot with its
indexes while mutating the live storage `st`.  A matching item removes the
element at the snapshot index from the *current* storage (`append` of the two
sub-slices when `index < len(st)-1`, truncation `st[:index]` otherwise); the
`index--` in the source has no effect (range variable), and the inner `break`
limits each snapshot item to at most one removal. -/
def deleteOneLoop (c : String) (flt : List (String × Val)) :
    List Rec → Nat → List Rec → Bool → GoOutcome (List Rec × Bool)
  | [], _, st, found => .det (st, found)
  | item :: rest, index, st, found =>
    if recMatches c flt item then
      if index < st.length - 1 then
        deleteOneLoop c flt rest (index + 1) (st.take index ++ st.drop (index + 1)) true
      else if index ≤ st.length then
        deleteOneLoop c flt rest (index + 1) (st.take index) true
      else .capDependent
    else
      deleteOneLoop c flt rest (index + 1) st found

/-- Model of `Collection.Delete(filter)` followed by `Delete.One()`.  Returns
the call result together with the storage after the call. -/
def Delete.One (c : String) (flt : Option (List (String × Val)))
    (s : Option (List Rec)) : GoOutcome (Except String Unit × Option (List Rec)) :=
  match flt, decodeManyStorage s with
  | none, _ => .det (.error "filter params cannot be nil", s)
  | some _, none => .det (.error "filter params cannot be nil", s)
  | some f, some ms =>
    match deleteOneLoop c f ms 0 ms false with
    | .capDependent => .capDependent
    | .det (st, found) =>
      if found then .det (.ok (), some st)
      else .det (.error "record not found", some st)

/-- Inner key loop of `Update.One` for one snapshot item, threading the
mutated item copy, the `counter` and the matched flag.  On the first match
with `counter < 1` the source assigns `item[key] = updateValue` where `key`
is the FILTER key under iteration and `updateValue` is the first patch value
in range order (the inner `for ... range u.update` breaks after one pair;
with an empty patch nothing is assigned and `counter` stays 0), then sets
`item["updatedAt"]`. -/
def updateItemKeys (c : String) (upd : List (String × Val)) (now : Nat) :
    List (String × Val) → Rec → Nat → Bool → Rec × Nat × Bool
  | [], item, counter, matched => (item, counter, matched)
  | (k, v) :: restKeys, item, counter, matched =>
    if colMatches c item && keyMatches item k v then
      if counter < 1 then
        match upd with
        | [] =>
          updateItemKeys c upd now restKeys (setV item "updatedAt" (.vtime now)) counter true
        | (_, uv) :: _ =>
          updateItemKeys c upd now restKeys
            (setV (setV item k uv) "updatedAt" (.vtime now)) (counter + 1) true
      else updateItemKeys c upd now restKeys item counter true
    else updateItemKeys c upd now restKeys item counter matched

/-- Outer loop of `Update.One`: for each snapshot item, the source executes
`MemgodbStorage[index] = item` once per matching filter key, each time with
the item's current mutated state; successive writes to the same index
overwrite each other, so only the final per-item state is kept. -/
def updateOneLoop (c : String) (flt upd : List (String × Val)) (now : Nat) :
    List Rec → Nat → List Rec → Nat → Bool → List Rec × Bool
  | [], _, st, _, found => (st, found)
  | item :: rest, index, st, counter, found =>
    match updateItemKeys c upd now flt item counter false with
    | (item', counter', matchedHere) =>
      if matchedHere then
        updateOneLoop c flt upd now rest (index + 1) (st.set index item') counter' true
      else
        updateOneLoop c flt upd now rest (index + 1) st counter' found

/-- Model of `Collection.Update(filter, obj)` followed by `Update.One()`.
Returns the call result together with the storage after the call.  A nil
patch map iterates like an empty one. -/
def Update.One (c : String) (flt : Option (List (String × Val)))
    (upd : List (String × Val)) (now : Nat) (s : Option (List Rec)) :
    Except String Unit × Option (List Rec) :=
  match flt, decodeManyStorage s with
  | none, _ => (.error "filter params cannot be nil", s)
  | some _, none => (.error "filter params cannot be nil", s)
  | some f, some ms =>
    match updateOneLoop c f upd now ms 0 ms 0 false with
    | (st, found) =>
      if found then (.ok (), some st) else (.error "record not found", some st)

/-- Model of `Memgodb.Persist()`: the persistence sink (the file
`./memgodbstorage.json`) holds the JSON array of records last written, or
`none` when no file exists.  When the storage slice is nil the source returns
nil immediately, leaving the sink untouched; otherwise it marshals the
storage and overwrites the file.  File-system write errors are outside the
model (the sink is treated as a reliable store). -/
def Memgodb.Persist (s : Option (List Rec)) (sink : Option (List Rec)) :
    Except String Unit × Option (List Rec) :=
  match s with
  | none => (.ok (), sink)
  | some xs => (.ok (), some xs)

/-- Model of `Memgodb.LoadDefault()` for sinks holding a JSON array of
records (the only shape `Persist` writes).  A missing file yields the
`error finding file` error; otherwise the parsed records are appended to the
storage unchanged — no normalization, no system-field injection.  Appending
zero elements to a nil slice leaves it nil. -/
def Memgodb.LoadDefault (s : Option (List Rec)) (sink : Option (List Rec)) :
    Except String Unit × Option (List Rec) :=
  match sink with
  | none => (.error "error finding file", s)
  | some xs =>
    match s, xs with
    | none, [] => (.ok (), none)
    | _, _ => (.ok (), some (live s ++ xs))

/-- Entry of the `Memdis` TTL store: `MemdisData{Value, Duration}` with
`Duration` the absolute expiry instant `time.Now().Add(ttl)`. -/
structure MemdisData where
  Value : Val
  Duration : Nat
  deriving DecidableEq, Repr

/-- One entry map `map[string]MemdisData` of the `Memdis` storage slice. -/
abbrev MCache := List (String × MemdisData)

/-- The `Memdis` TTL key/value store: a slice of single-entry maps (though
`SetMany` can append multi-entry maps). -/
structure Memdis where
  storage : List MCache
  deriving DecidableEq, Repr

/-- Check `_, ok := cache[key]`. -/
def hasKey (cache : MCache) (key : String) : Bool :=
  cache.any (fun p => p.1 = key)

/-- The `ttl` taken from the variadic `duration` parameter: its first element
or the zero duration. -/
def firstTTL (duration : List Nat) : Nat :=
  match duration with
  | [] => 0
  | d :: _ => d

/-- Model of `Memdis.Set()`: scans every entry map for the key and fails with
`key already exist` when found anywhere; otherwise appends a fresh
single-entry map with the value and expiry `now + ttl`. -/
def Memdis.Set (md : Memdis) (key : String) (value : Val) (now : Nat)
    (duration : List Nat) : Except String Memdis :=
  if md.storage.any (fun cache => hasKey cache key) then .error "key already exist"
  else .ok ⟨md.storage ++ [[(key, ⟨value, now + firstTTL duration⟩)]]⟩

/-- Model of `Memdis.KeyValuePairs()`: each entry map projected to its
`(key, Value)` pairs. -/
def Memdis.KeyValuePairs (md : Memdis) : List (List (String × Val)) :=
  md.storage.map (fun cache => cache.map (fun p => (p.1, p.2.Value)))

/-- Model of `Memdis.SetMany()`: appends every given entry map with no
duplicate-key check and returns the key/value pairs of the whole storage
together with a nil error. -/
def Memdis.SetMany (md : Memdis) (data : List MCache) :
    (List (List (String × Val)) × Except String Unit) × Memdis :=
  ((Memdis.KeyValuePairs ⟨md.storage ++ data⟩, .ok ()), ⟨md.storage ++ data⟩)

/-- Model of `Memdis.Get()`: returns the value of the key in the
earliest-inserted entry map containing it, or `key not found`. -/
def Memdis.Get (md : Memdis) (key : String) : Except String Val :=
  match md.storage.findSome?
      (fun cache => (cache.find? (fun p => p.1 = key)).map (fun p => p.2.Value)) with
  | some v => .ok v
  | none => .error "key not found"

end Fscache

namespace Fscache

/-! ## Helper lemmas -/

theorem getV_setV_self (r : Rec) (k : String) (v : Val) :
    getV (setV r k v) k = some v := by
  induction r with
  | nil => simp [setV, getV]
  | cons p rest ih =>
    obtain ⟨k', v'⟩ := p
    by_cases h : k' = k <;> simp [setV, getV, h, ih]

theorem getV_setV_ne (r : Rec) (k' k : String) (v : Val) (h : k' ≠ k) :
    getV (setV r k' v) k = getV r k := by
  induction r with
  | nil => simp [setV, getV, h]
  | cons p rest ih =>
    obtain ⟨k₀, v₀⟩ := p
    by_cases h₀ : k₀ = k'
    · subst h₀; simp [setV, getV, h]
    · simp [setV, getV, h₀, ih]

theorem keyMatches_iff (item : Rec) (k : String) (v : Val) :
    keyMatches item k v = true ↔ getV item k = some v := by
  unfold keyMatches
  cases h : getV item k <;> simp

theorem colMatches_iff (c : String) (item : Rec) :
    colMatches c item = true ↔ getV item "colName" = some (.vstr c) := by
  unfold colMatches
  simp

theorem list_set_append_len {α : Type} (A : List α) (x y : α) (B : List α) :
    (A ++ x :: B).set A.length y = A ++ y :: B := by
  induction A with
  | nil => rfl
  | cons a A' ih => simp [List.set, ih]

theorem list_getElem?_append_len {α : Type} (A B : List α) (j : Nat) :
    (A ++ B)[A.length + j]? = B[j]? := by
  induction A with
  | nil => simp
  | cons a A' ih =>
    have harith : (a :: A').length + j = (A'.length + j) + 1 := by
      simp [List.length_cons]; omega
    rw [List.cons_append, harith, List.getElem?_cons_succ, ih]

theorem list_set_of_getElem? {α : Type} (l : List α) (i : Nat) (x : α)
    (h : l[i]? = some x) : l.set i x = l := by
  induction l generalizing i with
  | nil => simp at h
  | cons a l' ih =>
    cases i with
    | zero =>
      simp at h
      simp [List.set, h]
    | succ i' =>
      simp at h
      simp [List.set, ih i' h]

/-! ## C1: the shared matching rule -/

/-- C1, counterexample: the claim says a record in the right collection that
satisfies only some but not all predicate pairs is not a match.  The record
`{colName: "users", a: 1, b: 3}` satisfies the pair `("a", 1)` of the
predicate `{a: 1, b: 2}` but not the pair `("b", 2)`; the code nevertheless
treats it as a match, and `Filter.First` returns it. -/
theorem c1_counterexample :
    recMatches "users" [("a", .vnum 1), ("b", .vnum 2)]
      [("colName", .vstr "users"), ("a", .vnum 1), ("b", .vnum 3)] = true
    ∧ keyMatches [("colName", .vstr "users"), ("a", .vnum 1), ("b", .vnum 3)]
        "b" (.vnum 2) = false
    ∧ Filter.First "users" (some [("a", .vnum 1), ("b", .vnum 2)])
        (some [[("colName", .vstr "users"), ("a", .vnum 1), ("b", .vnum 3)]])
      = .ok [("colName", .vstr "users"), ("a", .vnum 1), ("b", .vnum 3)] :=
  ⟨by rfl, by rfl, by rfl⟩

/-- C1, amended: the shared matching rule of find/delete/update treats a
stored record as a match if and only if its `colName` field equals the
handle's collection identifier AND at least one (key, value) pair of the
non-null predicate is present in the record with an equal value (existential,
not universal, over the predicate's pairs). -/
theorem c1_match_rule (c : String) (flt : List (String × Val)) (item : Rec) :
    recMatches c flt item = true ↔
      (getV item "colName" = some (.vstr c)
        ∧ ∃ kv ∈ flt, getV item kv.1 = some kv.2) := by
  unfold recMatches
  rw [List.any_eq_true]
  constructor
  · rintro ⟨kv, hmem, hkv⟩
    rw [Bool.and_eq_true] at hkv
    exact ⟨(colMatches_iff c item).mp hkv.1, kv, hmem,
      (keyMatches_iff item kv.1 kv.2).mp hkv.2⟩
  · rintro ⟨hcol, kv, hmem, hkv⟩
    refine ⟨kv, hmem, ?_⟩
    rw [Bool.and_eq_true]
    exact ⟨(colMatches_iff c item).mpr hcol, (keyMatches_iff item kv.1 kv.2).mpr hkv⟩

/-! ## C7: collection-name resolution on misuse -/

/-- C7: the code evaluated at the failing input.  The guard
`reflect.ValueOf(col).IsZero() && col == nil` never fires for a non-nil
value, so the empty text `""` does NOT fail fatally: it yields a handle whose
collection identifier is the empty text (not even pluralized, since the
trailing-"s" rule is guarded by `len(colName) > 0`).  Nil input and inputs of
unsupported kind do panic, and ordinary text resolves normally. -/
theorem c7_collection_empty_string :
    collectionName (.gstr "") = .ok ""
    ∧ collectionName .gnil
        = .error "reflect: call of reflect.Value.IsZero on zero Value"
    ∧ collectionName (.gother "int")
        = .error "Collection must either be a [string] or an [object]"
    ∧ collectionName (.gmap [])
        = .error "Collection must either be a [string] or an [object]"
    ∧ collectionName (.gstr "user") = .ok "users"
    ∧ collectionName (.gstruct "Order" [] true) = .ok "orders" :=
  ⟨by rfl, by rfl, by rfl, by rfl, by rfl, by rfl⟩

/-! ## C9: a failed single insert never changes the store -/

/-- C9: whenever `Insert(obj).One()` returns an error (nil input, unsupported
shape, or a normalization failure inside `decode`), the storage slice is
exactly what it was before the call: every error exit happens before the
append. -/
theorem c9_insert_error_no_mutation (c : String) (obj : GoVal) (newId now : Nat)
    (s : Option (List Rec)) (e : String)
    (h : (Insert.One c obj newId now s).1 = .error e) :
    (Insert.One c obj newId now s).2 = s := by
  cases obj with
  | gnil => rfl
  | gstr _ => rfl
  | gother _ => rfl
  | gmap m => simp [Insert.One, decode] at h
  | gstruct name fields ok =>
    cases ok with
    | true => simp [Insert.One, decode] at h
    | false => rfl

theorem list_take_append_len {α : Type} (A B : List α) :
    (A ++ B).take A.length = A := by
  induction A with
  | nil => rfl
  | cons a A' ih => simp [List.take, ih]

theorem list_drop_append_len {α : Type} (A B : List α) :
    (A ++ B).drop A.length = B := by
  induction A with
  | nil => rfl
  | cons a A' ih => simp [List.drop, ih]

/-! ## C4: insertOne appends one record with system fields -/

/-- C4: for a field-map input, `Insert.One` appends exactly one record to the
storage carrying the input's fields plus the system fields (`colName` =
handle identifier, the fresh `id`, `createdAt` = now, `updatedAt` = null)
and returns it; when the fresh id is not already in the store the new record
is the only one carrying it; nil input and inputs of unsupported kind fail
without appending; a marshalable struct behaves exactly like its field map. -/
theorem c4_insert_one (c : String) (m : Rec) (newId now : Nat)
    (s : Option (List Rec))
    (hfresh : ∀ x ∈ live s, getV x "id" ≠ some (.vid newId)) :
    Insert.One c (.gmap m) newId now s
      = (.ok (injectSystemFields c m newId now),
         some (live s ++ [injectSystemFields c m newId now]))
    ∧ getV (injectSystemFields c m newId now) "colName" = some (.vstr c)
    ∧ getV (injectSystemFields c m newId now) "id" = some (.vid newId)
    ∧ getV (injectSystemFields c m newId now) "createdAt" = some (.vtime now)
    ∧ getV (injectSystemFields c m newId now) "updatedAt" = some .vnull
    ∧ (∀ k, k ≠ "colName" → k ≠ "id" → k ≠ "createdAt" → k ≠ "updatedAt" →
        getV (injectSystemFields c m newId now) k = getV m k)
    ∧ (∀ x ∈ live s, getV x "id" ≠ getV (injectSystemFields c m newId now) "id")
    ∧ Insert.One c .gnil newId now s = (.error "One() params cannot be nil", s)
    ∧ (∀ str, Insert.One c (.gstr str) newId now s
        = (.error "insert() param must either be a [map] or a [struct]", s))
    ∧ (∀ kd, Insert.One c (.gother kd) newId now s
        = (.error "insert() param must either be a [map] or a [struct]", s))
    ∧ (∀ name fields, Insert.One c (.gstruct name fields true) newId now s
        = Insert.One c (.gmap fields) newId now s) := by
  have hid : getV (injectSystemFields c m newId now) "id" = some (.vid newId) := by
    unfold injectSystemFields
    rw [getV_setV_ne _ _ _ _ (by decide), getV_setV_ne _ _ _ _ (by decide),
      getV_setV_self]
  refine ⟨rfl, ?_, hid, ?_, ?_, ?_, ?_, rfl, fun _ => rfl, fun _ => rfl,
    fun _ _ => rfl⟩
  · unfold injectSystemFields
    rw [getV_setV_ne _ _ _ _ (by decide), getV_setV_ne _ _ _ _ (by decide),
      getV_setV_ne _ _ _ _ (by decide), getV_setV_self]
  · unfold injectSystemFields
    rw [getV_setV_ne _ _ _ _ (by decide), getV_setV_self]
  · unfold injectSystemFields
    rw [getV_setV_self]
  · intro k hk1 hk2 hk3 hk4
    unfold injectSystemFields
    rw [getV_setV_ne _ _ _ _ (Ne.symm hk4), getV_setV_ne _ _ _ _ (Ne.symm hk3),
      getV_setV_ne _ _ _ _ (Ne.symm hk2), getV_setV_ne _ _ _ _ (Ne.symm hk1)]
  · intro x hx
    rw [hid]
    exact hfresh x hx

/-- C4, witness: a concrete insert into a concrete one-record store. -/
theorem c4_witness :
    Insert.One "users" (.gmap [("name", .vstr "John")]) 7 5
        (some [[("id", Val.vid 3)]])
      = (.ok (injectSystemFields "users" [("name", .vstr "John")] 7 5),
         some (live (some [[("id", Val.vid 3)]])
           ++ [injectSystemFields "users" [("name", .vstr "John")] 7 5])) :=
  (c4_insert_one "users" [("name", .vstr "John")] 7 5
    (some [[("id", Val.vid 3)]]) (by decide)).1

/-! ## C5: find(predicate).all() -/

/-- C5, counterexample: against a nil (never-written) store, a non-null
predicate that matches nothing does NOT fail with the not-found error — the
decoded snapshot `objMaps` is itself nil, so `All` takes the nil-predicate
path and succeeds with the empty result.  Against an allocated store the
claimed not-found failure does occur. -/
theorem c5_counterexample :
    Filter.All "users" (some [("a", .vnum 1)]) none = .ok []
    ∧ Filter.All "users" (some [("a", .vnum 1)]) (some [])
      = .error "record not found" :=
  ⟨by rfl, by rfl⟩

/-- Inner loops of `Filter.All` produce nothing exactly when no storage item
matches the filter. -/
theorem allMatches_eq_nil (c : String) (f : List (String × Val)) (ms : List Rec)
    (h : ∀ x ∈ ms, recMatches c f x = false) : allMatches c f ms = [] := by
  induction ms with
  | nil => rfl
  | cons item rest ih =>
    have hitem := h item (by simp)
    have hkeys : ∀ kv ∈ f,
        (colMatches c item && keyMatches item kv.1 kv.2) = false := by
      intro kv hkv
      by_contra hne
      have : recMatches c f item = true := by
        unfold recMatches
        rw [List.any_eq_true]
        exact ⟨kv, hkv, by revert hne; cases colMatches c item && keyMatches item kv.1 kv.2 <;> simp⟩
      rw [this] at hitem
      simp at hitem
    have hfm : f.filterMap (fun kv =>
        if colMatches c item && keyMatches item kv.1 kv.2 then some item
        else none) = [] := by
      rw [List.filterMap_eq_nil_iff]
      intro kv hkv
      rw [hkeys kv hkv]
      rfl
    unfold allMatches
    rw [List.flatMap_cons, hfm]
    simpa [allMatches] using ih (fun x hx => h x (by simp [hx]))

/-- C5, amended: with a null predicate, `find(...).all()` succeeds and
returns every record currently in the Document Store, across all
collections, ignoring the handle's scope; with a non-null predicate that
matches nothing it fails with the not-found error PROVIDED the storage slice
has been allocated — on a nil (fresh) store it instead succeeds with the
empty result (see the counterexample). -/
theorem c5_find_all (c : String) (f : List (String × Val)) (xs : List Rec)
    (hnone : ∀ x ∈ xs, recMatches c f x = false) :
    (∀ (c' : String) (s : Option (List Rec)), Filter.All c' none s = .ok (live s))
    ∧ Filter.All c (some f) (some xs) = .error "record not found" := by
  constructor
  · intro c' s
    cases s <;> rfl
  · show Filter.All c (some f) (some xs) = .error "record not found"
    unfold Filter.All
    simp [decodeManyStorage, allMatches_eq_nil c f xs hnone]

/-- C5, witness: a store holding only a record of another collection makes a
non-null predicate fail with the not-found error. -/
theorem c5_witness :
    Filter.All "users" (some [("a", .vnum 1)])
        (some [[("colName", .vstr "posts"), ("a", .vnum 1)]])
      = .error "record not found" :=
  (c5_find_all "users" [("a", .vnum 1)]
    [[("colName", .vstr "posts"), ("a", .vnum 1)]] (by decide)).2

/-! ## C6: snapshot persistence round trip -/

/-- C6, counterexample: `save()` is NOT a no-op on every empty store — it
only short-circuits when the storage slice is nil.  An allocated-but-empty
store (reachable by inserting a record and deleting it) is serialized and
overwrites a previous snapshot with the empty array. -/
theorem c6_counterexample :
    (Memgodb.Persist (some []) (some [[("a", .vnum 1)]])).2 = some []
    ∧ (Memgodb.Persist (some []) (some [[("a", .vnum 1)]])).2
        ≠ some [[("a", .vnum 1)]] :=
  ⟨by rfl, by decide⟩

/-- C6, amended: `save()` followed by `load()` into a fresh empty store
reproduces exactly the records (same fields, same system fields) that were
live before `save()`; `load()` appends the persisted content directly with
no normalization or system-field injection; and `save()` is a successful
no-op when the storage slice is nil (never written) — though not when the
store is allocated but empty, see the counterexample. -/
theorem c6_persistence :
    (∀ (xs : List Rec) (sink : Option (List Rec)),
        Memgodb.Persist (some xs) sink = (.ok (), some xs)
        ∧ (Memgodb.LoadDefault none (Memgodb.Persist (some xs) sink).2).1 = .ok ()
        ∧ live (Memgodb.LoadDefault none (Memgodb.Persist (some xs) sink).2).2 = xs)
    ∧ (∀ (s : Option (List Rec)) (ys : List Rec),
        (Memgodb.LoadDefault s (some ys)).1 = .ok ()
        ∧ live (Memgodb.LoadDefault s (some ys)).2 = live s ++ ys)
    ∧ (∀ sink, Memgodb.Persist none sink = (.ok (), sink)) := by
  refine ⟨?_, ?_, fun sink => rfl⟩
  · intro xs sink
    cases xs <;> exact ⟨rfl, rfl, rfl⟩
  · intro s ys
    cases s <;> cases ys <;> exact ⟨rfl, rfl⟩

/-! ## C8: TTL-store set fails on an existing key -/

/-- C8: `Memdis.Set` fails with the key-exists error exactly when the key is
already present in some entry map anywhere in the storage (in particular a
second `Set` of the same key always fails); on success it appends one fresh
single-entry map holding the value with expiry `now + ttl`. -/
theorem c8_memdis_set (md : Memdis) (key : String) (value : Val) (now : Nat)
    (duration : List Nat) :
    (Memdis.Set md key value now duration = .error "key already exist"
      ↔ ∃ cache ∈ md.storage, hasKey cache key = true)
    ∧ ((∀ cache ∈ md.storage, hasKey cache key = false) →
        Memdis.Set md key value now duration
          = .ok ⟨md.storage ++ [[(key, ⟨value, now + firstTTL duration⟩)]]⟩)
    ∧ (∀ (md' : Memdis) (v2 : Val) (now2 : Nat) (dur2 : List Nat),
        Memdis.Set md key value now duration = .ok md' →
        Memdis.Set md' key v2 now2 dur2 = .error "key already exist") := by
  by_cases h : md.storage.any (fun cache => hasKey cache key)
  · refine ⟨?_, ?_, ?_⟩
    · simp only [Memdis.Set, h, if_true]
      simpa using List.any_eq_true.mp h
    · intro hall
      rw [List.any_eq_true] at h
      obtain ⟨cache, hmem, hk⟩ := h
      rw [hall cache hmem] at hk
      exact absurd hk (by simp)
    · intro md' v2 now2 dur2 hok
      simp [Memdis.Set, h] at hok
  · have hfalse : (md.storage.any fun cache => hasKey cache key) = false := by
      simpa using h
    refine ⟨?_, fun _ => by simp [Memdis.Set, h], ?_⟩
    · constructor
      · intro habs
        simp [Memdis.Set, h] at habs
      · intro hex
        exfalso
        obtain ⟨cache, hmem, hk⟩ := hex
        rw [List.any_eq_false] at hfalse
        have := hfalse cache hmem
        simp [hk] at this
    · intro md' v2 now2 dur2 hok
      have hset : Memdis.Set md key value now duration
          = .ok ⟨md.storage ++ [[(key, ⟨value, now + firstTTL duration⟩)]]⟩ := by
        simp [Memdis.Set, hfalse]
      rw [hset] at hok
      have hmd' : md' = Memdis.mk
          (md.storage ++ [[(key, (⟨value, now + firstTTL duration⟩ : MemdisData))]]) :=
        (Except.ok.inj hok).symm
      subst hmd'
      have hany : (List.any (md.storage ++ [[(key, (⟨value, now + firstTTL duration⟩ : MemdisData))]])
          (fun cache => hasKey cache key)) = true := by
        rw [List.any_append]
        simp [hasKey]
      simp [Memdis.Set, hany]

/-- C8, witness: setting an already-present key fails on a concrete store. -/
theorem c8_witness :
    Memdis.Set ⟨[[("key1", ⟨.vstr "value1", 60⟩)]]⟩ "key1" (.vstr "v2") 0 []
      = .error "key already exist" :=
  (c8_memdis_set ⟨[[("key1", ⟨.vstr "value1", 60⟩)]]⟩ "key1" (.vstr "v2") 0
    []).1.mpr (by decide)

/-! ## C10: SetMany appends unconditionally; Get returns the earliest entry -/

/-- Findsome over an appended list keeps the first hit of the prefix. -/
theorem list_findSome?_append_some {α β : Type} (l1 l2 : List α)
    (f : α → Option β) (b : β) (h : l1.findSome? f = some b) :
    (l1 ++ l2).findSome? f = some b := by
  induction l1 with
  | nil => simp [List.findSome?] at h
  | cons a t ih =>
    cases hf : f a with
    | some x =>
      simp [List.findSome?_cons, hf] at h ⊢
      exact h
    | none =>
      simp [List.findSome?_cons, hf] at h ⊢
      exact ih h

/-- C10: `SetMany` never returns an error and appends every given entry map
to the storage with no duplicate-key check — so a key already stored via
`Set` can afterwards live in two entries — and `Get` of such a key returns
the value from the earliest-inserted entry. -/
theorem c10_setmany_get (md : Memdis) (data : List MCache) (k : String) (v : Val)
    (hget : Memdis.Get md k = .ok v) :
    (Memdis.SetMany md data).1.2 = .ok ()
    ∧ (Memdis.SetMany md data).2 = ⟨md.storage ++ data⟩
    ∧ Memdis.Get (Memdis.SetMany md data).2 k = .ok v := by
  refine ⟨rfl, rfl, ?_⟩
  unfold Memdis.Get at hget ⊢
  cases hfs : md.storage.findSome?
      (fun cache => (cache.find? (fun p => p.1 = k)).map (fun p => p.2.Value)) with
  | none => rw [hfs] at hget; exact absurd hget (by simp)
  | some w =>
    rw [hfs] at hget
    have hw : w = v := by
      have := hget
      simp at this
      exact this
    subst hw
    show (match (md.storage ++ data).findSome? _ with
      | some v => Except.ok v | none => Except.error "key not found") = Except.ok w
    rw [list_findSome?_append_some md.storage data _ w hfs]

/-- C10, witness: a key stored once and then appended again via `SetMany`
resolves to the original value. -/
theorem c10_witness :
    Memdis.Get (Memdis.SetMany ⟨[[("key1", ⟨.vstr "value1", 60⟩)]]⟩
        [[("key1", ⟨.vstr "dup", 0⟩)]]).2 "key1" = .ok (.vstr "value1") :=
  (c10_setmany_get ⟨[[("key1", ⟨.vstr "value1", 60⟩)]]⟩
    [[("key1", ⟨.vstr "dup", 0⟩)]] "key1" (.vstr "value1") (by rfl)).2.2

/-! ## C3: delete(predicate).one() -/

/-- First-match scan of `Filter.First` yields nothing when no record
matches. -/
theorem firstMatch_eq_none (c : String) (f : List (String × Val)) (ms : List Rec)
    (h : ∀ x ∈ ms, recMatches c f x = false) : firstMatch c f ms = none := by
  induction ms with
  | nil => rfl
  | cons item rest ih =>
    have hitem : recMatches c f item = false := h item (by simp)
    have hrest := ih (fun x hx => h x (by simp [hx]))
    simp [firstMatch, hitem, hrest]

/-- The delete loop passes over non-matching snapshot items without touching
the live storage. -/
theorem deleteOneLoop_noMatch (c : String) (f : List (String × Val)) (ms : List Rec)
    (idx : Nat) (st : List Rec) (found : Bool)
    (h : ∀ x ∈ ms, recMatches c f x = false) :
    deleteOneLoop c f ms idx st found = .det (st, found) := by
  induction ms generalizing idx with
  | nil => rfl
  | cons item rest ih =>
    have hitem : recMatches c f item = false := h item (by simp)
    have hrest := ih (idx + 1) (fun x hx => h x (by simp [hx]))
    simp [deleteOneLoop, hitem, hrest]

/-- The delete loop skips a non-matching snapshot prefix, advancing only the
index. -/
theorem deleteOneLoop_skip (c : String) (f : List (String × Val))
    (msPre msRest : List Rec) (idx : Nat) (st : List Rec) (found : Bool)
    (h : ∀ x ∈ msPre, recMatches c f x = false) :
    deleteOneLoop c f (msPre ++ msRest) idx st found
      = deleteOneLoop c f msRest (idx + msPre.length) st found := by
  induction msPre generalizing idx with
  | nil => simp
  | cons item rest ih =>
    have hitem : recMatches c f item = false := h item (by simp)
    have hrest := ih (idx + 1) (fun x hx => h x (by simp [hx]))
    have harith : idx + 1 + rest.length = idx + (rest.length + 1) := by omega
    rw [List.cons_append]
    simp [deleteOneLoop, hitem]
    rw [hrest, harith]

/-- C3, counterexample: three records `[A, B, C]` where `A` and `B` match the
predicate and `C` does not.  The claim says `delete(p).one()` removes exactly
the first match `A` and leaves `B` and `C` in place, i.e. the store becomes
`[B, C]`.  The code instead leaves `[B]`: the loop keeps reacting to the
stale snapshot, truncating away the non-matching `C` while keeping the
matching `B`. -/
theorem c3_counterexample :
    Delete.One "users" (some [("k", .vnum 1)])
        (some [[("colName", .vstr "users"), ("k", .vnum 1)],
               [("colName", .vstr "users"), ("k", .vnum 1), ("t", .vnum 2)],
               [("colName", .vstr "users"), ("k", .vnum 7)]])
      = .det (.ok (),
          some [[("colName", .vstr "users"), ("k", .vnum 1), ("t", .vnum 2)]])
    ∧ recMatches "users" [("k", .vnum 1)]
        [("colName", .vstr "users"), ("k", .vnum 7)] = false
    ∧ recMatches "users" [("k", .vnum 1)]
        [("colName", .vstr "users"), ("k", .vnum 1), ("t", .vnum 2)] = true :=
  ⟨by rfl, by rfl, by rfl⟩

/-- C3, amended: when the non-null predicate matches exactly one stored
record, `delete(predicate).one()` removes exactly that record and leaves
every other record in place, and a subsequent `find(predicate).first()`
fails with the not-found error; `delete` fails with the nil-params error
when the predicate is null and with the not-found error when nothing
matches.  When several records match, the loop keeps deleting against stale
snapshot indexes and can also remove non-matching records (see the
counterexample). -/
theorem c3_delete_one (c : String) (f : List (String × Val))
    (pre post : List Rec) (r : Rec)
    (hpre : ∀ x ∈ pre, recMatches c f x = false)
    (hr : recMatches c f r = true)
    (hpost : ∀ x ∈ post, recMatches c f x = false) :
    Delete.One c (some f) (some (pre ++ r :: post))
      = .det (.ok (), some (pre ++ post))
    ∧ Filter.First c (some f) (some (pre ++ post)) = .error "record not found"
    ∧ (∀ s, Delete.One c none s = .det (.error "filter params cannot be nil", s))
    ∧ (∀ xs, (∀ x ∈ xs, recMatches c f x = false) →
        Delete.One c (some f) (some xs)
          = .det (.error "record not found", some xs)) := by
  refine ⟨?_, ?_, fun s => rfl, ?_⟩
  · have hloop : deleteOneLoop c f (pre ++ r :: post) 0 (pre ++ r :: post) false
        = .det (pre ++ post, true) := by
      rw [deleteOneLoop_skip c f pre (r :: post) 0 (pre ++ r :: post) false hpre,
        Nat.zero_add]
      cases post with
      | nil =>
        have hnotlt : ¬ pre.length < (pre ++ r :: []).length - 1 := by
          simp
        have hle : pre.length ≤ (pre ++ r :: []).length := by
          simp
        have htake : (pre ++ r :: []).take pre.length = pre := by
          exact list_take_append_len pre (r :: [])
        simp [deleteOneLoop, hr, hnotlt, hle, htake]
      | cons q post' =>
        have hlt : pre.length < (pre ++ r :: q :: post').length - 1 := by
          simp
        have htake : (pre ++ r :: q :: post').take pre.length = pre :=
          list_take_append_len pre (r :: q :: post')
        have hdrop : (pre ++ r :: q :: post').drop (pre.length + 1) = q :: post' := by
          have h1 : pre ++ r :: q :: post' = (pre ++ [r]) ++ (q :: post') := by
            simp
          have h2 : (pre ++ [r]).length = pre.length + 1 := by
            simp
          rw [h1, ← h2, list_drop_append_len]
        have hrest := deleteOneLoop_noMatch c f (q :: post') (pre.length + 1)
          (pre ++ q :: post') true hpost
        unfold deleteOneLoop
        simp only [hr, hlt, htake, hdrop, if_pos, if_true]
        exact hrest
    simp [Delete.One, decodeManyStorage, hloop]
  · have hnone : firstMatch c f (pre ++ post) = none :=
      firstMatch_eq_none c f (pre ++ post) (by
        intro x hx
        rcases List.mem_append.mp hx with h1 | h2
        · exact hpre x h1
        · exact hpost x h2)
    simp [Filter.First, decodeManyStorage, hnone]
  · intro xs hxs
    have hloop := deleteOneLoop_noMatch c f xs 0 xs false hxs
    simp [Delete.One, decodeManyStorage, hloop]

/-- C3, witness: a concrete single-match delete removes exactly that record,
and the subsequent first-match lookup fails. -/
theorem c3_witness :
    Delete.One "users" (some [("k", .vnum 1)])
        (some ([] ++ [("colName", .vstr "users"), ("k", .vnum 1)]
          :: [[("colName", .vstr "users"), ("k", .vnum 7)]]))
      = .det (.ok (), some ([] ++ [[("colName", .vstr "users"), ("k", .vnum 7)]])) :=
  (c3_delete_one "users" [("k", .vnum 1)] []
    [[("colName", .vstr "users"), ("k", .vnum 7)]]
    [("colName", .vstr "users"), ("k", .vnum 1)]
    (by decide) (by rfl) (by decide)).1

/-! ## C2: update(predicate, patch).one() -/

/-- Elimination form of a failed match: every filter pair fails on the
item. -/
theorem recMatches_false_elim (c : String) (f : List (String × Val)) (item : Rec)
    (h : recMatches c f item = false) :
    ∀ kv ∈ f, (colMatches c item && keyMatches item kv.1 kv.2) = false := by
  intro kv hkv
  unfold recMatches at h
  rw [List.any_eq_false] at h
  have := h kv hkv
  cases hb : (colMatches c item && keyMatches item kv.1 kv.2) with
  | false => rfl
  | true => exact absurd hb this

/-- The inner update key loop does nothing on an item that matches no filter
pair. -/
theorem updateItemKeys_noMatch (c : String) (upd : List (String × Val)) (now : Nat)
    (keys : List (String × Val)) (item : Rec) (counter : Nat) (m : Bool)
    (h : ∀ kv ∈ keys, (colMatches c item && keyMatches item kv.1 kv.2) = false) :
    updateItemKeys c upd now keys item counter m = (item, counter, m) := by
  induction keys with
  | nil => rfl
  | cons kv rest ih =>
    obtain ⟨k, v⟩ := kv
    have hkv := h (k, v) (by simp)
    have hrest := ih (fun kv hkv => h kv (by simp [hkv]))
    simp only [updateItemKeys, hkv, Bool.false_eq_true, if_false, hrest]

/-- Once the counter is positive the key loop only reports whether some pair
matched; the item comes back unchanged. -/
theorem updateItemKeys_counterPos (c : String) (upd : List (String × Val)) (now : Nat)
    (keys : List (String × Val)) (item : Rec) (counter : Nat) (m : Bool)
    (hc : 1 ≤ counter) :
    updateItemKeys c upd now keys item counter m
      = (item, counter,
          m || keys.any (fun kv => colMatches c item && keyMatches item kv.1 kv.2)) := by
  induction keys generalizing m with
  | nil => simp [updateItemKeys]
  | cons kv rest ih =>
    obtain ⟨k, v⟩ := kv
    have hnotlt : ¬ counter < 1 := by omega
    by_cases hkv : (colMatches c item && keyMatches item k v) = true
    · simp [updateItemKeys, hkv, hnotlt, ih true]
    · have hkv' : (colMatches c item && keyMatches item k v) = false := by
        revert hkv
        cases colMatches c item && keyMatches item k v <;> simp
      simp [updateItemKeys, hkv', ih m]

/-- The outer update loop passes over non-matching snapshot items. -/
theorem updateOneLoop_skip (c : String) (f upd : List (String × Val)) (now : Nat)
    (msPre msRest : List Rec) (idx : Nat) (st : List Rec) (counter : Nat)
    (found : Bool) (h : ∀ x ∈ msPre, recMatches c f x = false) :
    updateOneLoop c f upd now (msPre ++ msRest) idx st counter found
      = updateOneLoop c f upd now msRest (idx + msPre.length) st counter found := by
  induction msPre generalizing idx with
  | nil => simp
  | cons item rest ih =>
    have hik := updateItemKeys_noMatch c upd now f item counter false
      (recMatches_false_elim c f item (h item (by simp)))
    have hrest := ih (idx + 1) (fun x hx => h x (by simp [hx]))
    have harith : idx + 1 + rest.length = idx + (rest.length + 1) := by omega
    rw [List.cons_append]
    simp [updateOneLoop, hik]
    rw [hrest, harith]

/-- The update loop leaves both storage and counter untouched when nothing
matches, reporting not-found. -/
theorem updateOneLoop_noMatch (c : String) (f upd : List (String × Val)) (now : Nat)
    (ms : List Rec) (idx : Nat) (st : List Rec) (counter : Nat) (found : Bool)
    (h : ∀ x ∈ ms, recMatches c f x = false) :
    updateOneLoop c f upd now ms idx st counter found = (st, found) := by
  induction ms generalizing idx with
  | nil => rfl
  | cons item rest ih =>
    have hik := updateItemKeys_noMatch c upd now f item counter false
      (recMatches_false_elim c f item (h item (by simp)))
    have hrest := ih (idx + 1) (fun x hx => h x (by simp [hx]))
    simp [updateOneLoop, hik, hrest]

/-- Once the single permitted mutation has happened (counter positive), the
loop writes every later matching item back unchanged: with the live storage
aligned to the snapshot the storage is left exactly as it is. -/
theorem updateOneLoop_counterPos (c : String) (f upd : List (String × Val)) (now : Nat)
    (ms : List Rec) (idx : Nat) (st : List Rec) (counter : Nat) (found : Bool)
    (hc : 1 ≤ counter)
    (halign : ∀ j, j < ms.length → st[idx + j]? = ms[j]?) :
    updateOneLoop c f upd now ms idx st counter found
      = (st, found || ms.any (fun x => recMatches c f x)) := by
  induction ms generalizing idx found with
  | nil => simp [updateOneLoop]
  | cons item rest ih =>
    have hik := updateItemKeys_counterPos c upd now f item counter false hc
    have halign' : ∀ j, j < rest.length → st[(idx + 1) + j]? = rest[j]? := by
      intro j hj
      have harith : idx + (j + 1) = (idx + 1) + j := by omega
      have := halign (j + 1) (by simpa using Nat.succ_lt_succ hj)
      rw [harith] at this
      simpa using this
    by_cases hm : recMatches c f item = true
    · have hm' : (f.any fun kv => colMatches c item && keyMatches item kv.1 kv.2)
          = true := hm
      have hidx : st[idx]? = some item := by
        have := halign 0 (by simp)
        simpa using this
      have hset : st.set idx item = st := list_set_of_getElem? st idx item hidx
      have hrest := ih (idx + 1) true halign'
      simp [updateOneLoop, hik, hm', hset, hrest, hm]
    · have hm' : (f.any fun kv => colMatches c item && keyMatches item kv.1 kv.2)
          = false := by
        revert hm
        unfold recMatches
        cases f.any fun kv => colMatches c item && keyMatches item kv.1 kv.2 <;> simp
      have hrest := ih (idx + 1) found halign'
      have hmm : recMatches c f item = false := hm'
      simp [updateOneLoop, hik, hm', hrest, hmm]

/-- C2, counterexample: one stored record matching the predicate `{a: 1}`,
patch `{b: 9}`.  The claim says the patch pair is applied, i.e. field `b`
becomes 9.  The code instead executes `item[key] = updateValue` with `key`
the FILTER key, so field `a` (the predicate key) receives the patch value 9
while the patch key `b` keeps its old value 0. -/
theorem c2_counterexample :
    Update.One "users" (some [("a", .vnum 1)]) [("b", .vnum 9)] 5
        (some [[("colName", .vstr "users"), ("a", .vnum 1), ("b", .vnum 0)]])
      = (.ok (), some [[("colName", .vstr "users"), ("a", .vnum 9), ("b", .vnum 0),
          ("updatedAt", .vtime 5)]])
    ∧ getV [("colName", .vstr "users"), ("a", .vnum 9), ("b", .vnum 0),
        ("updatedAt", .vtime 5)] "b" = some (.vnum 0)
    ∧ getV [("colName", .vstr "users"), ("a", .vnum 9), ("b", .vnum 0),
        ("updatedAt", .vtime 5)] "a" = some (.vnum 9) :=
  ⟨by rfl, by rfl, by rfl⟩

/-- C2, amended: for a single-pair predicate `{fk: fv}` and a non-empty
patch, `update(predicate, patch).one()` mutates only the first matching
record in insertion order: it assigns the FIRST PATCH VALUE to the FILTER
key `fk` (not to the patch's key) and sets `updatedAt` to now; every other
record — including later matches, which are written back unchanged — is left
exactly as it was; the call fails with the nil-params error when the
predicate is null and with the not-found error when nothing matches. -/
theorem c2_update_one (c fk uk : String) (fv uv : Val)
    (urest : List (String × Val)) (now : Nat) (pre post : List Rec) (r : Rec)
    (hpre : ∀ x ∈ pre, recMatches c [(fk, fv)] x = false)
    (hr : recMatches c [(fk, fv)] r = true) :
    Update.One c (some [(fk, fv)]) ((uk, uv) :: urest) now
        (some (pre ++ r :: post))
      = (.ok (), some (pre ++ setV (setV r fk uv) "updatedAt" (.vtime now) :: post))
    ∧ getV (setV (setV r fk uv) "updatedAt" (.vtime now)) fk
        = (if fk = "updatedAt" then some (.vtime now) else some uv)
    ∧ (∀ k, k ≠ fk → k ≠ "updatedAt" →
        getV (setV (setV r fk uv) "updatedAt" (.vtime now)) k = getV r k)
    ∧ getV (setV (setV r fk uv) "updatedAt" (.vtime now)) "updatedAt"
        = some (.vtime now)
    ∧ (∀ (upd : List (String × Val)) (s : Option (List Rec)),
        Update.One c none upd now s = (.error "filter params cannot be nil", s))
    ∧ (∀ (upd : List (String × Val)) (xs : List Rec),
        (∀ x ∈ xs, recMatches c [(fk, fv)] x = false) →
        Update.One c (some [(fk, fv)]) upd now (some xs)
          = (.error "record not found", some xs)) := by
  have hcond : (colMatches c r && keyMatches r fk fv) = true := by
    unfold recMatches at hr
    simpa using hr
  refine ⟨?_, ?_, ?_, ?_, fun upd s => rfl, ?_⟩
  · have hik : updateItemKeys c ((uk, uv) :: urest) now [(fk, fv)] r 0 false
        = (setV (setV r fk uv) "updatedAt" (.vtime now), 1, true) := by
      simp [updateItemKeys, hcond]
    have hset : (pre ++ r :: post).set pre.length
          (setV (setV r fk uv) "updatedAt" (.vtime now))
        = pre ++ setV (setV r fk uv) "updatedAt" (.vtime now) :: post :=
      list_set_append_len pre r (setV (setV r fk uv) "updatedAt" (.vtime now)) post
    have halign : ∀ j, j < post.length →
        (pre ++ setV (setV r fk uv) "updatedAt" (.vtime now) :: post)[(pre.length + 1) + j]?
          = post[j]? := by
      intro j hj
      have h1 : pre ++ setV (setV r fk uv) "updatedAt" (.vtime now) :: post
          = (pre ++ [setV (setV r fk uv) "updatedAt" (.vtime now)]) ++ post := by
        simp
      have h2 : (pre ++ [setV (setV r fk uv) "updatedAt" (.vtime now)]).length
          = pre.length + 1 := by
        simp
      rw [h1, ← h2, list_getElem?_append_len]
    have hloop2 := updateOneLoop_counterPos c [(fk, fv)] ((uk, uv) :: urest) now post
      (pre.length + 1) (pre ++ setV (setV r fk uv) "updatedAt" (.vtime now) :: post)
      1 true (le_refl 1) halign
    have hstep : updateOneLoop c [(fk, fv)] ((uk, uv) :: urest) now (r :: post)
        pre.length (pre ++ r :: post) 0 false
        = (pre ++ setV (setV r fk uv) "updatedAt" (.vtime now) :: post, true) := by
      unfold updateOneLoop
      rw [hik]
      simp only [if_true, if_pos]
      rw [hset, hloop2]
      simp
    have hloop : updateOneLoop c [(fk, fv)] ((uk, uv) :: urest) now
        (pre ++ r :: post) 0 (pre ++ r :: post) 0 false
        = (pre ++ setV (setV r fk uv) "updatedAt" (.vtime now) :: post, true) := by
      rw [updateOneLoop_skip c [(fk, fv)] ((uk, uv) :: urest) now pre (r :: post) 0
        (pre ++ r :: post) 0 false hpre, Nat.zero_add, hstep]
    simp [Update.One, decodeManyStorage, hloop]
  · by_cases hfk : fk = "updatedAt"
    · subst hfk
      rw [if_pos rfl, getV_setV_self]
    · rw [if_neg hfk, getV_setV_ne _ _ _ _ (Ne.symm hfk), getV_setV_self]
  · intro k hk1 hk2
    rw [getV_setV_ne _ _ _ _ (Ne.symm hk2), getV_setV_ne _ _ _ _ (Ne.symm hk1)]
  · rw [getV_setV_self]
  · intro upd xs hxs
    have hloop := updateOneLoop_noMatch c [(fk, fv)] upd now xs 0 xs 0 false hxs
    simp [Update.One, decodeManyStorage, hloop]

/-- C2, witness: a concrete two-matching-record store; only the first record
is mutated, the later match is untouched. -/
theorem c2_witness :
    Update.One "users" (some [("a", .vnum 1)]) [("b", .vnum 9)] 5
        (some ([] ++ [("colName", .vstr "users"), ("a", .vnum 1), ("b", .vnum 0)]
          :: [[("colName", .vstr "users"), ("a", .vnum 1), ("b", .vnum 4)]]))
      = (.ok (), some ([] ++ setV (setV [("colName", .vstr "users"), ("a", .vnum 1),
          ("b", .vnum 0)] "a" (.vnum 9)) "updatedAt" (.vtime 5)
          :: [[("colName", .vstr "users"), ("a", .vnum 1), ("b", .vnum 4)]])) :=
  (c2_update_one "users" "a" "b" (.vnum 1) (.vnum 9) [] 5 []
    [[("colName", .vstr "users"), ("a", .vnum 1), ("b", .vnum 4)]]
    [("colName", .vstr "users"), ("a", .vnum 1), ("b", .vnum 0)]
    (by decide) (by rfl)).1

/-- C9, witness: a concrete erroring insert (nil input) leaves a concrete
storage unchanged. -/
theorem c9_witness :
    (Insert.One "users" .gnil 7 5 (some [[("a", .vnum 1)]])).1
      = .error "One() params cannot be nil"
    ∧ (Insert.One "users" .gnil 7 5 (some [[("a", .vnum 1)]])).2
      = some [[("a", .vnum 1)]] :=
  ⟨by rfl, c9_insert_error_no_mutation "users" .gnil 7 5 (some [[("a", .vnum 1)]])
    "One() params cannot be nil" (by rfl)⟩

end Fscache
